import Mathlib

set_option maxRecDepth 10000

/-!
Shallow embedding of the tool-call resolution and dispatch logic of
`MCP_3/client.py` (function `ask_llm`).  Python runtime values that the
resolver probes are modelled by `PyVal`; SDK objects carry an attribute
table, an optional dict conversion (the `model_dump()` / `.dict()` /
`dict(x)` chain, `none` when every conversion raises) and their `str()`
rendering.  Strings are ASCII in all inputs of interest, so the Python
regex classes `\w` and `\s` are modelled over ASCII.
-/

inductive PyVal where
  | pynone
  | pybool (b : Bool)
  | pyint (n : Int)
  | pystr (s : String)
  | pylist (xs : List PyVal)
  | pydict (entries : List (String × PyVal))
  | pyobj (attrs : List (String × PyVal)) (dump : Option (List (String × PyVal))) (reprS : String)

/-- Python truthiness (`if val:`). Objects are always truthy here (none of the
SDK objects define `__bool__` or `__len__`). -/
def truthy : PyVal → Bool
  | .pynone => false
  | .pybool b => b
  | .pyint n => n != 0
  | .pystr s => s != ""
  | .pylist xs => !xs.isEmpty
  | .pydict es => !es.isEmpty
  | .pyobj _ _ _ => true

/-- Python identity test `x is None`. -/
def isNone : PyVal → Bool
  | .pynone => true
  | _ => false

/-- Association-list lookup modelling both `getattr(x, k, None)` and
`d.get(k)`: a missing key yields Python `None`. -/
def lookupKey (es : List (String × PyVal)) (k : String) : PyVal :=
  match es.find? (fun e => e.fst == k) with
  | some e => e.snd
  | none => .pynone

mutual

/-- Python `repr` of a value (the form used for elements inside
containers); for modelled SDK objects it is their stored rendering. -/
def pyRepr : PyVal → String
  | .pynone => "None"
  | .pybool b => if b then "True" else "False"
  | .pyint n => toString n
  | .pystr s => "\x27" ++ s ++ "\x27"
  | .pylist xs => "[" ++ pyReprList xs ++ "]"
  | .pydict es => "\x7b" ++ pyReprEntries es ++ "\x7d"
  | .pyobj _ _ r => r

def pyReprList : List PyVal → String
  | [] => ""
  | [v] => pyRepr v
  | v :: rest => pyRepr v ++ ", " ++ pyReprList rest

def pyReprEntries : List (String × PyVal) → String
  | [] => ""
  | [(k, v)] => "\x27" ++ k ++ "\x27: " ++ pyRepr v
  | (k, v) :: rest => "\x27" ++ k ++ "\x27: " ++ pyRepr v ++ ", " ++ pyReprEntries rest

end

/-- Python `str(x)`: identical to `repr` except on strings. -/
def pyStr : PyVal → String
  | .pystr s => s
  | v => pyRepr v

/-- `getattr(v, k, None)` on an arbitrary value: only modelled objects
expose attributes; every other value yields the default `None`. -/
def pyAttr (v : PyVal) (k : String) : PyVal :=
  match v with
  | .pyobj attrs _ _ => lookupKey attrs k
  | _ => .pynone

/-- Insert with Python-dict override semantics (a later binding for the
same key replaces the earlier one). -/
def insertKey (es : List (String × PyVal)) (k : String) (v : PyVal) : List (String × PyVal) :=
  if es.any (fun e => e.fst == k) then
    es.map (fun e => if e.fst == k then (k, v) else e)
  else es ++ [(k, v)]

/-- `dict(xs)` on a list: succeeds when every element is a key/value pair
(pairs are modelled as two-element lists with a string key); otherwise the
call raises, modelled by `none`. -/
def listToDictAux : List (String × PyVal) → List PyVal → Option (List (String × PyVal))
  | acc, [] => some acc
  | acc, .pylist [.pystr k, v] :: rest => listToDictAux (insertKey acc k v) rest
  | _, _ :: _ => none

/-- The `model_dump()` / `.dict()` / `dict(x)` conversion chain applied to
an arbitrary value (client.py lines 129-135 and 144-150); `none` models the
chain raising, which the source catches. -/
def pyDump : PyVal → Option (List (String × PyVal))
  | .pyobj _ d _ => d
  | .pydict es => some es
  | .pylist xs => listToDictAux [] xs
  | _ => none

/-- The raw tool-call object handed to the resolution logic: its attribute
table and the result of the `model_dump()` / `.dict()` / `dict(tool_call)`
chain of client.py lines 87-98 (`none` when every conversion raises, in
which case the source falls back to the empty dict). -/
structure Signal where
  attrs : List (String × PyVal)
  dump : Option (List (String × PyVal))

/-- ASCII model of the Python regex class `\w`. -/
def isWordChar (c : Char) : Bool := c.isAlphanum || c == '_'

/-- The Python regex class `\s` over ASCII. -/
def isPySpace (c : Char) : Bool :=
  c == ' ' || c == '\t' || c == '\n' || c == '\r' || c == '\x0b' || c == '\x0c'

/-- The character class `[A-Za-z0-9_\-]` of the name-recovery regexes. -/
def identChar (c : Char) : Bool := c.isAlphanum || c == '_' || c == '-'

/-- The capture class `[\w\s\.\-@]` of the sender regex (client.py line 198). -/
def senderClass (c : Char) : Bool :=
  isWordChar c || isPySpace c || c == '.' || c == '-' || c == '@'

/-- A `\b` boundary holds before a word character when the preceding
character (if any) is not itself a word character. -/
def wordBoundary : Option Char → Bool
  | none => true
  | some c => !isWordChar c

/-- The alternatives of the trigger pattern of line 159
(`\bFunction\(|\bfunction\(|\bToolCall\(|\bChatCompletion`). -/
def ctorTokens : List String := ["Function(", "function(", "ToolCall(", "ChatCompletion"]

def ctorTokenAt (prev : Option Char) (cs : List Char) : Bool :=
  wordBoundary prev && ctorTokens.any (fun t => t.data.isPrefixOf cs)

def scanCtor : Option Char → List Char → Bool
  | _, [] => false
  | prev, c :: rest => ctorTokenAt prev (c :: rest) || scanCtor (some c) rest

/-- `re.search` of the trigger pattern of line 159. -/
def containsCtorToken (s : String) : Bool := scanCtor none s.data

/-- A match of the recovery pattern of line 160
(`name=['\"]?([A-Za-z0-9_\-]+)['\"]?`) anchored at the head of `cs`:
literal `name=`, an optional quote, then the nonempty capture run. -/
def nameEqAt (cs : List Char) : Option (List Char) :=
  if (String.data "name=").isPrefixOf cs then
    match cs.drop 5 with
    | [] => none
    | q :: t =>
      if q == '\x27' || q == '"' then
        let r := t.takeWhile identChar
        if r.isEmpty then none else some r
      else
        let r := (q :: t).takeWhile identChar
        if r.isEmpty then none else some r
  else none

def scanNameEq : List Char → Option (List Char)
  | [] => none
  | c :: rest =>
    match nameEqAt (c :: rest) with
    | some r => some r
    | none => scanNameEq rest

/-- `re.search` of the line 170 pattern (`\bname=['\"]?([A-Za-z0-9_\-]+)`),
which differs from line 160 by a leading word boundary. -/
def scanNameEqB : Option Char → List Char → Option (List Char)
  | _, [] => none
  | prev, c :: rest =>
    match (if wordBoundary prev then nameEqAt (c :: rest) else none) with
    | some r => some r
    | none => scanNameEqB (some c) rest

/-- A match of the fallback pattern of line 165
(`([A-Za-z0-9_\-]+)\)\s*$`) anchored at the head of `cs`. -/
def trailingIdentAt (cs : List Char) : Option (List Char) :=
  match cs with
  | [] => none
  | c :: _ =>
    if identChar c then
      let r := cs.takeWhile identChar
      match cs.drop r.length with
      | ')' :: ws => if ws.all isPySpace then some r else none
      | _ => none
    else none

def scanTrailing : List Char → Option (List Char)
  | [] => none
  | c :: rest =>
    match trailingIdentAt (c :: rest) with
    | some r => some r
    | none => scanTrailing rest

/-- A match of the sender pattern `from\s+([\w\s\.\-@]+)` (line 198, with
`re.I`) anchored at the head of `cs`: case-insensitive literal `from`, at
least one whitespace, then the greedy capture.  When no class character
follows the maximal whitespace run, the engine backtracks `\s+` by one and
the capture is the last whitespace character of that run. -/
def fromAt (cs : List Char) : Option (List Char) :=
  match cs with
  | f :: r :: o :: m :: rest =>
    if f.toLower == 'f' && r.toLower == 'r' && o.toLower == 'o' && m.toLower == 'm' then
      match rest with
      | [] => none
      | c :: _ =>
        if isPySpace c then
          let w := rest.takeWhile isPySpace
          let g := (rest.drop w.length).takeWhile senderClass
          if g.isEmpty then
            if 2 ≤ w.length then
              match w.getLast? with
              | some wc => some [wc]
              | none => none
            else none
          else some g
        else none
    else none
  | _ => none

def scanFrom : List Char → Option (List Char)
  | [] => none
  | c :: rest =>
    match fromAt (c :: rest) with
    | some g => some g
    | none => scanFrom rest

/-- `re.search(r"from\s+([\w\s\.\-@]+)", question, re.I)`, returning the
capture group. -/
def findFromGroup (q : String) : Option String :=
  (scanFrom q.data).map (fun g => String.mk g)

/-- Python `str.strip` parametrised by the stripped character class:
members of the class are removed from both ends. -/
def stripClass (p : Char → Bool) (s : String) : String :=
  String.mk ((s.data.dropWhile p).reverse.dropWhile p).reverse

def stripPunctChar (c : Char) : Bool :=
  c == '"' || c == '\x27' || c == '?' || c == '.'

/-- `m.group(1).strip().strip('"\x27?.')` of line 200. -/
def senderOf (g : String) : String :=
  stripClass stripPunctChar (stripClass isPySpace g)

/-- The query synthesised for `search_emails` when the model supplied no
arguments (lines 196-205). -/
def searchQuery (q : String) : String :=
  match findFromGroup q with
  | some g => "from:\"" ++ senderOf g ++ "\""
  | none => q

def synthSearchArgs (q : String) : PyVal :=
  .pydict [("query", .pystr (searchQuery q)), ("max_results", .pyint 5)]

def jsonWs (c : Char) : Bool := c == ' ' || c == '\t' || c == '\n' || c == '\r'

def jskip (cs : List Char) : List Char := cs.dropWhile jsonWs

/-- Body of a JSON string (after the opening quote), with the common
backslash escapes; unsupported escape forms are a parse error. -/
def parseJStringAux : List Char → List Char → Option (String × List Char)
  | _, [] => none
  | acc, '"' :: rest => some (String.mk acc.reverse, rest)
  | acc, '\\' :: e :: rest =>
    let dec : Option Char :=
      if e == '"' then some '"'
      else if e == '\\' then some '\\'
      else if e == '/' then some '/'
      else if e == 'n' then some '\n'
      else if e == 't' then some '\t'
      else if e == 'r' then some '\r'
      else none
    match dec with
    | some c => parseJStringAux (c :: acc) rest
    | none => none
  | acc, c :: rest => parseJStringAux (c :: acc) rest

def digitsToNat (ds : List Char) : Nat :=
  ds.foldl (fun acc c => acc * 10 + (c.toNat - 48)) 0

/-- JSON integer numeral (the client only exercises integers; a `.`, `e` or
`E` continuation — a float — is not modelled and yields a parse error). -/
def parseJNumber (cs : List Char) : Option (PyVal × List Char) :=
  let p := match cs with
    | '-' :: t => (true, t)
    | _ => (false, cs)
  let ds := p.snd.takeWhile Char.isDigit
  let rest := p.snd.drop ds.length
  if ds.isEmpty then none
  else if 2 ≤ ds.length && ds.headD '0' == '0' then none
  else
    match rest with
    | '.' :: _ => none
    | 'e' :: _ => none
    | 'E' :: _ => none
    | _ =>
      let n : Int := Int.ofNat (digitsToNat ds)
      some (.pyint (if p.fst then -n else n), rest)

mutual

def parseJValue : Nat → List Char → Option (PyVal × List Char)
  | 0, _ => none
  | fuel + 1, cs =>
    match jskip cs with
    | [] => none
    | c :: rest =>
      if c == 'n' then
        if (String.data "ull").isPrefixOf rest then some (.pynone, rest.drop 3) else none
      else if c == 't' then
        if (String.data "rue").isPrefixOf rest then some (.pybool true, rest.drop 3) else none
      else if c == 'f' then
        if (String.data "alse").isPrefixOf rest then some (.pybool false, rest.drop 4) else none
      else if c == '"' then
        match parseJStringAux [] rest with
        | some (s, r) => some (.pystr s, r)
        | none => none
      else if c == '[' then
        match jskip rest with
        | ']' :: r2 => some (.pylist [], r2)
        | cs2 => parseJArrayRest fuel [] cs2
      else if c == '\x7b' then
        match jskip rest with
        | '\x7d' :: r2 => some (.pydict [], r2)
        | cs2 => parseJObjRest fuel [] cs2
      else if c == '-' || c.isDigit then parseJNumber (c :: rest)
      else none

def parseJArrayRest : Nat → List PyVal → List Char → Option (PyVal × List Char)
  | 0, _, _ => none
  | fuel + 1, acc, cs =>
    match parseJValue fuel cs with
    | none => none
    | some (v, r) =>
      match jskip r with
      | ',' :: r2 => parseJArrayRest fuel (v :: acc) r2
      | ']' :: r2 => some (.pylist (v :: acc).reverse, r2)
      | _ => none

def parseJObjRest : Nat → List (String × PyVal) → List Char → Option (PyVal × List Char)
  | 0, _, _ => none
  | fuel + 1, acc, cs =>
    match jskip cs with
    | '"' :: r =>
      match parseJStringAux [] r with
      | none => none
      | some (k, r2) =>
        match jskip r2 with
        | ':' :: r3 =>
          match parseJValue fuel r3 with
          | none => none
          | some (v, r4) =>
            match jskip r4 with
            | ',' :: r5 => parseJObjRest fuel (insertKey acc k v) r5
            | '\x7d' :: r5 => some (.pydict (insertKey acc k v), r5)
            | _ => none
        | _ => none
    | _ => none

end

/-- `json.loads` restricted to the integer-numeral fragment the client
exercises; `none` models `JSONDecodeError`. -/
def jsonParse (s : String) : Option PyVal :=
  match parseJValue (s.length + 1) s.data with
  | some (v, rest) => if (jskip rest).isEmpty then some v else none
  | none => none

/-- The static tool table `TOOL_DESCRIPTORS` of client.py lines 25-50
(parameter schemas reduced to the parameter names; descriptions omitted). -/
structure ToolDescriptor where
  name : String
  params : List String

def TOOL_DESCRIPTORS : List ToolDescriptor :=
  [⟨"get_unread_emails", ["max_results"]⟩,
   ⟨"search_emails", ["query", "max_results"]⟩,
   ⟨"get_email_full", ["message_id"]⟩]

def knownToolNames : List String := TOOL_DESCRIPTORS.map (fun d => d.name)

def knownTool (n : String) : Bool := knownToolNames.contains n

def MCP_BASE : String := "http://localhost:8000/tools"

def endpointOf (n : String) : String := MCP_BASE ++ "/" ++ n

/-- Lines 100-105: probe the attributes `name`, `tool`, `function`,
`tool_name` in order and keep the first truthy value (`None` when all
probes fail). -/
def probeName (attrs : List (String × PyVal)) : PyVal :=
  let n := lookupKey attrs "name"
  if truthy n then n else
  let t := lookupKey attrs "tool"
  if truthy t then t else
  let f := lookupKey attrs "function"
  if truthy f then f else
  let tn := lookupKey attrs "tool_name"
  if truthy tn then tn else .pynone

/-- Line 111: `tc_dict.get("name") or tc_dict.get("tool") or
(tc_dict.get("function") if isinstance(tc_dict.get("function"), str) else
None)`. -/
def dictNameOf (tcd : List (String × PyVal)) : PyVal :=
  let n := lookupKey tcd "name"
  if truthy n then n else
  let t := lookupKey tcd "tool"
  if truthy t then t else
  match lookupKey tcd "function" with
  | .pystr f => .pystr f
  | _ => .pynone

/-- Line 112 and line 142: `tc_dict.get("arguments") or tc_dict.get("args")
or tc_dict.get("arguments_json")`. -/
def dictArgsOf (tcd : List (String × PyVal)) : PyVal :=
  let a := lookupKey tcd "arguments"
  if truthy a then a else
  let b := lookupKey tcd "args"
  if truthy b then b else
  lookupKey tcd "arguments_json"

/-- Lines 120-138: when the extracted name is a nested value, read an inner
`name`-like field; strings pass through and `None` stays `None`.  For other
values the `name` attribute is tried, then the dict-conversion chain, then
`str(tool_name)` (which is also the value produced when the chain raises). -/
def nestedName : PyVal → PyVal
  | .pydict es =>
    let n := lookupKey es "name"
    if truthy n then n else lookupKey es "tool"
  | .pynone => .pynone
  | .pystr s => .pystr s
  | v =>
    let na := pyAttr v "name"
    if truthy na then na
    else
      match pyDump v with
      | some tcd =>
        let n := lookupKey tcd "name"
        if truthy n then n else
        let t := lookupKey tcd "tool"
        if truthy t then t else .pystr (pyStr v)
      | none => .pystr (pyStr v)

/-- Lines 154-179: final normalization of the tool name.  A string that
looks like a serialized call object has the embedded `name=` value (or a
trailing identifier before a closing parenthesis) extracted; any non-string
value is rendered with `str` and the `\bname=` pattern tried on the
rendering. -/
def normalizeName : PyVal → String
  | .pystr s =>
    if containsCtorToken s then
      match scanNameEq s.data with
      | some r => String.mk r
      | none =>
        match scanTrailing s.data with
        | some r => String.mk r
        | none => s
    else s
  | v =>
    let rep := pyStr v
    match scanNameEqB none rep.data with
    | some r => String.mk r
    | none => rep

/-- The complete name-extraction pipeline of lines 100-179. -/
def resolveName (s : Signal) : String :=
  let tcd := s.dump.getD []
  let n0 := probeName s.attrs
  let dn := dictNameOf tcd
  let n1 := if truthy dn then dn else n0
  normalizeName (nestedName n1)

/-- Lines 107-152: extraction of the raw arguments value, prior to JSON
parsing.  Attribute probing (`arguments` or `args`), the dict override of
lines 112-116, the re-read of lines 141-142, and the object conversion of
lines 143-152. -/
def extractRawArgs (s : Signal) : PyVal :=
  let tcd := s.dump.getD []
  let aAttr := pyAttr (.pyobj s.attrs s.dump "") "arguments"
  let r0 := if truthy aAttr then aAttr else pyAttr (.pyobj s.attrs s.dump "") "args"
  let da := dictArgsOf tcd
  let r1 := if !isNone da && isNone r0 then da else r0
  if isNone r1 then dictArgsOf tcd
  else
    match r1 with
    | .pystr s => .pystr s
    | .pydict d => .pydict d
    | .pylist l => .pylist l
    | other =>
      match pyDump other with
      | some d => .pydict d
      | none => .pystr (pyStr other)

/-- Lines 186-190: `args = json.loads(raw_args) if isinstance(raw_args,
str) else (raw_args or \x7b\x7d)`, with a JSON decode error degrading to the
empty dict. -/
def parseRawArgs : PyVal → PyVal
  | .pystr s =>
    match jsonParse s with
    | some v => v
    | none => .pydict []
  | v => if truthy v then v else .pydict []

inductive ResolutionFailure where
  | noToolIdentified
  | missingRequiredArgument

/-- Lines 192-212: per-tool default arguments when extraction yielded a
falsy value; `get_email_full` cannot be defaulted; a name outside the known
tool table leaves the falsy arguments unchanged. -/
def applyDefaults (n : String) (q : String) (a : PyVal) : Except ResolutionFailure (String × PyVal) :=
  if n = "search_emails" then .ok (n, synthSearchArgs q)
  else if n = "get_unread_emails" then .ok (n, .pydict [("max_results", .pyint 5)])
  else if n = "get_email_full" then .error .missingRequiredArgument
  else .ok (n, a)

/-- The resolution portion of `ask_llm` (lines 80-212): name extraction and
normalization, the emptiness guard of line 182, argument extraction and
parsing, and default synthesis. -/
def resolve (s : Signal) (q : String) : Except ResolutionFailure (String × PyVal) :=
  let n := resolveName s
  if n = "" then .error .noToolIdentified
  else
    let a := parseRawArgs (extractRawArgs s)
    if truthy a then .ok (n, a)
    else applyDefaults n q a

inductive PostResult where
  | transportError
  | response (status : Nat) (jsonBody : Option PyVal)

inductive DispatchError where
  | transport
  | httpStatus (code : Nat)
  | decode

inductive DispatchResult where
  | failure (e : DispatchError)
  | ok (data : PyVal)

/-- Lines 219-229: POST to `MCP_BASE/{tool_name}` (with a JSON body exactly
when the arguments are truthy), `raise_for_status` (an exception for every
4xx/5xx status), then `resp.json()` (an exception when the body is not
JSON); every exception is caught by the caller. -/
def dispatch (world : String → Option PyVal → PostResult) (n : String) (body : Option PyVal) : DispatchResult :=
  match world (endpointOf n) body with
  | .transportError => .failure .transport
  | .response st b =>
    if 400 ≤ st ∧ st < 600 then .failure (.httpStatus st)
    else
      match b with
      | some data => .ok data
      | none => .failure .decode

/-- The body argument of the POST of lines 221-224: the arguments value
when truthy, otherwise a bodiless request. -/
def bodyOf (a : PyVal) : Option PyVal :=
  if truthy a then some a else none

/-- Observable outcome of one `ask_llm` turn past the point where the model
has signalled a tool call: either a diagnostic-and-return (no tool name,
missing required argument, failed dispatch) or the follow-up reasoning call
on the fetched data (lines 232-243). -/
inductive Outcome where
  | noTool
  | missingArg
  | dispatchFailed (name : String) (body : Option PyVal) (err : DispatchError)
  | answered (name : String) (body : Option PyVal) (data : PyVal)

def finalCalled : Outcome → Bool
  | .answered _ _ _ => true
  | _ => false

def dispatchAttempted : Outcome → Bool
  | .answered _ _ _ => true
  | .dispatchFailed _ _ _ => true
  | _ => false

def diagnosticEmitted : Outcome → Bool
  | .answered _ _ _ => false
  | _ => true

/-- The dispatched body, when a POST was made at all. -/
def outcomeBody : Outcome → Option (Option PyVal)
  | .answered _ b _ => some b
  | .dispatchFailed _ b _ => some b
  | _ => none

/-- The tool-call branch of `ask_llm` (lines 77-243): resolution, dispatch,
and the follow-up reasoning step, with every failure terminal for the
current question. -/
def ask_llm (world : String → Option PyVal → PostResult) (s : Signal) (q : String) : Outcome :=
  match resolve s q with
  | .error .noToolIdentified => .noTool
  | .error .missingRequiredArgument => .missingArg
  | .ok (n, args) =>
    match dispatch world n (bodyOf args) with
    | .failure e => .dispatchFailed n (bodyOf args) e
    | .ok data => .answered n (bodyOf args) data

/-! Helper lemmas about the name-extraction pipeline. -/

theorem allIdent_takeWhile {cs : List Char} (h : ∀ c ∈ cs, identChar c = true) :
    cs.takeWhile identChar = cs := by
  induction cs with
  | nil => rfl
  | cons c rest ih =>
    rw [List.takeWhile_cons, h c (by simp), if_pos rfl]
    rw [ih (fun x hx => h x (List.mem_cons_of_mem _ hx))]

theorem allIdent_nameEqAt {cs : List Char} (h : ∀ c ∈ cs, identChar c = true) :
    nameEqAt cs = none := by
  have hp : ¬ ((String.data "name=").isPrefixOf cs = true) := by
    intro hpre
    have hsub : (String.data "name=") <+: cs := List.isPrefixOf_iff_prefix.mp hpre
    have hmem : '=' ∈ cs := hsub.subset (by decide)
    have := h _ hmem
    simp [identChar] at this
  unfold nameEqAt
  rw [if_neg (by simpa using hp)]

theorem allIdent_scanNameEq {cs : List Char} (h : ∀ c ∈ cs, identChar c = true) :
    scanNameEq cs = none := by
  induction cs with
  | nil => rfl
  | cons c rest ih =>
    unfold scanNameEq
    rw [allIdent_nameEqAt h]
    exact ih (fun x hx => h x (List.mem_cons_of_mem _ hx))

theorem allIdent_trailingIdentAt {cs : List Char} (h : ∀ c ∈ cs, identChar c = true) :
    trailingIdentAt cs = none := by
  cases cs with
  | nil => rfl
  | cons c rest =>
    unfold trailingIdentAt
    by_cases hc : identChar c = true
    · simp only [hc, if_true]
      rw [allIdent_takeWhile h, List.drop_length]
    · simp [hc]

theorem allIdent_scanTrailing {cs : List Char} (h : ∀ c ∈ cs, identChar c = true) :
    scanTrailing cs = none := by
  induction cs with
  | nil => rfl
  | cons c rest ih =>
    unfold scanTrailing
    rw [allIdent_trailingIdentAt h]
    exact ih (fun x hx => h x (List.mem_cons_of_mem _ hx))

/-- Final name normalization is the identity on plain identifiers: the
name-recovery patterns need an `=` or a `)`, both outside the identifier
character class. -/
theorem normalizeName_plain {n : String} (hall : n.data.all identChar = true) :
    normalizeName (.pystr n) = n := by
  have h : ∀ c ∈ n.data, identChar c = true := fun c hc => List.all_eq_true.mp hall c hc
  unfold normalizeName
  by_cases hct : containsCtorToken n = true
  · simp only [hct, if_true]
    rw [allIdent_scanNameEq h, allIdent_scanTrailing h]
  · simp [hct]

theorem resolve_ok_name {s : Signal} {q n : String} {a : PyVal}
    (h : resolve s q = .ok (n, a)) : n = resolveName s ∧ resolveName s ≠ "" := by
  unfold resolve at h
  by_cases hn : resolveName s = ""
  · rw [if_pos hn] at h
    exact absurd h (by simp)
  · rw [if_neg hn] at h
    refine ⟨?_, hn⟩
    by_cases ht : truthy (parseRawArgs (extractRawArgs s)) = true
    · rw [if_pos ht] at h
      injection h with h2
      exact (congrArg Prod.fst h2).symm
    · rw [if_neg ht] at h
      unfold applyDefaults at h
      split at h
      · injection h with h2; exact (congrArg Prod.fst h2).symm
      · split at h
        · injection h with h2; exact (congrArg Prod.fst h2).symm
        · split at h
          · exact absurd h (by simp)
          · injection h with h2; exact (congrArg Prod.fst h2).symm

theorem resolve_ok_known_truthy {s : Signal} {q n : String} {a : PyVal}
    (h : resolve s q = .ok (n, a)) (hk : knownTool n = true) : truthy a = true := by
  unfold resolve at h
  by_cases hn : resolveName s = ""
  · rw [if_pos hn] at h
    exact absurd h (by simp)
  · rw [if_neg hn] at h
    by_cases ht : truthy (parseRawArgs (extractRawArgs s)) = true
    · rw [if_pos ht] at h
      injection h with h2
      cases h2
      exact ht
    · rw [if_neg ht] at h
      unfold applyDefaults at h
      split at h
      · injection h with h2
        cases h2
        rfl
      · split at h
        · injection h with h2
          cases h2
          rfl
        · split at h
          · exact absurd h (by simp)
          · rename_i hs hu hf
            injection h with h2
            cases h2
            simp [knownTool, knownToolNames, TOOL_DESCRIPTORS] at hk
            rcases hk with hk | hk | hk
            · exact absurd hk hu
            · exact absurd hk hs
            · exact absurd hk hf

/-! Helper lemmas about the sender capture. -/

theorem fromAt_senderClass {cs g : List Char} (h : fromAt cs = some g) :
    ∀ c ∈ g, senderClass c = true := by
  unfold fromAt at h
  split at h
  · rename_i f r o m rest
    split at h
    · split at h
      · exact absurd h (by simp)
      · rename_i c rest2
        split at h
        · dsimp only at h
          split at h
          · split at h
            · split at h
              · injection h with h2
                subst h2
                intro x hx
                rename_i hlast
                have hw := List.mem_of_getLast?_eq_some hlast
                have hsp := List.mem_takeWhile_imp hw
                simp only [List.mem_singleton] at hx
                subst hx
                simp [senderClass, hsp]
              · exact absurd h (by simp)
            · exact absurd h (by simp)
          · injection h with h2
            subst h2
            intro x hx
            have := List.mem_takeWhile_imp hx
            exact this
        · exact absurd h (by simp)
    · exact absurd h (by simp)
  · exact absurd h (by simp)

theorem scanFrom_senderClass {cs g : List Char} (h : scanFrom cs = some g) :
    ∀ c ∈ g, senderClass c = true := by
  induction cs with
  | nil => exact absurd h (by simp [scanFrom])
  | cons c rest ih =>
    unfold scanFrom at h
    revert h
    split
    · intro h
      injection h with h2
      subst h2
      rename_i hat
      exact fromAt_senderClass hat
    · intro h
      exact ih h

/-! Definitions referenced by the claim statements. -/

/-- A PyVal that is a mapping in the JSON sense. -/
def isMapping : PyVal → Bool
  | .pydict _ => true
  | _ => false

/-- The invariant that actually holds at dispatch time: a non-empty name
string and a truthy (hence non-`None`) body whenever a body is sent. -/
def dispatchInvariant : Outcome → Bool
  | .answered n b _ => n != "" && b.all truthy
  | .dispatchFailed n b _ => n != "" && b.all truthy
  | _ => true

/-- The candidate name locations the source probes successfully: the four
attributes of lines 101-105, the dict entries of line 111 (`name`, `tool`,
and `function` when its value is a string), and a name nested one level
inside the value of the `function` attribute (lines 120-138), as a dict or
as an object. -/
inductive NameLoc where
  | attrName
  | attrTool
  | attrFunction
  | attrToolName
  | dictName
  | dictTool
  | dictFunction
  | attrFunctionObj
  | attrFunctionDict

def signalWithNameAt : NameLoc → String → Signal
  | .attrName, n => ⟨[("name", .pystr n)], none⟩
  | .attrTool, n => ⟨[("tool", .pystr n)], none⟩
  | .attrFunction, n => ⟨[("function", .pystr n)], none⟩
  | .attrToolName, n => ⟨[("tool_name", .pystr n)], none⟩
  | .dictName, n => ⟨[], some [("name", .pystr n)]⟩
  | .dictTool, n => ⟨[], some [("tool", .pystr n)]⟩
  | .dictFunction, n => ⟨[], some [("function", .pystr n)]⟩
  | .attrFunctionObj, n => ⟨[("function", .pyobj [("name", .pystr n)] none "")], none⟩
  | .attrFunctionDict, n => ⟨[("function", .pydict [("name", .pystr n)])], none⟩

/-- A non-empty plain identifier over `[A-Za-z0-9_\-]`. -/
def isPlainIdent (n : String) : Bool := n != "" && n.data.all identChar

/-! Claim theorems. -/

/-- C1, counterexample: the code never validates the extracted tool name
against the ToolDescriptor table and never forces the arguments into a
mapping.  A signal naming the unknown tool `my_tool` with a list-shaped
arguments value resolves successfully and is dispatched as-is: the POST
carries the name `my_tool` (not one of the three known tools) and a list
body (not a mapping). -/
theorem c1_dispatch_counterexample :
    resolve ⟨[("name", .pystr "my_tool"), ("arguments", .pylist [.pystr "x"])], none⟩ "q" =
      .ok ("my_tool", .pylist [.pystr "x"]) ∧
    knownTool "my_tool" = false ∧
    isMapping (.pylist [.pystr "x"]) = false ∧
    ask_llm (fun _ _ => .response 200 (some (.pydict [])))
        ⟨[("name", .pystr "my_tool"), ("arguments", .pylist [.pystr "x"])], none⟩ "q" =
      .answered "my_tool" (some (.pylist [.pystr "x"])) (.pydict []) :=
  ⟨rfl, rfl, rfl, rfl⟩

/-- C1, amended: by the time the dispatch POST is made the resolved name is
a non-empty string (but it is not checked against the known ToolDescriptor
names), and whenever a JSON body is sent at all the arguments value is
truthy — in particular never null; a falsy arguments value produces a
bodiless POST instead. -/
theorem c1_dispatch_invariant :
    ∀ (w : String → Option PyVal → PostResult) (s : Signal) (q : String),
    dispatchInvariant (ask_llm w s q) = true := by
  intro w s q
  unfold ask_llm
  cases hres : resolve s q with
  | error e => cases e <;> rfl
  | ok p =>
    obtain ⟨n, a⟩ := p
    have hn : n ≠ "" := by
      have := resolve_ok_name hres
      rw [this.1]
      exact this.2
    have hb : (bodyOf a).all truthy = true := by
      unfold bodyOf
      cases ht : truthy a
      · simp [ht]
      · simp [ht]
    cases hd : dispatch w n (bodyOf a) <;>
      simp [dispatchInvariant, hd, hb, bne_iff_ne, hn]

/-- C2: the resolution portion of `ask_llm` is a total function of the
signal and the question — in the embedding every fallible extraction or
parsing step of the source is a value-level fallback, never a propagated
exception — and its only failure outcomes are the two explicit signals
`NoToolIdentified` and `MissingRequiredArgument`. -/
theorem c2_resolution_total :
    ∀ (s : Signal) (q : String),
    resolve s q = .error .noToolIdentified ∨
    resolve s q = .error .missingRequiredArgument ∨
    ∃ n a, resolve s q = .ok (n, a) := by
  intro s q
  cases h : resolve s q with
  | error e =>
    cases e
    · exact Or.inl rfl
    · exact Or.inr (Or.inl rfl)
  | ok p =>
    obtain ⟨n, a⟩ := p
    exact Or.inr (Or.inr ⟨n, a, rfl⟩)

/-- C3, counterexample: the dict-representation probe of line 111 does not
look at the key `tool_name`, although the attribute probe of line 101 does.
A signal exposing the name only under the dict entry `tool_name` does not
resolve to that name (the pipeline falls through to `str(None)` and yields
the string `None`), while the same name under the `tool_name` attribute is
extracted — so extraction is not location-independent over the claimed
candidate list. -/
theorem c3_location_counterexample :
    resolveName ⟨[], some [("tool_name", .pystr "search_emails")]⟩ = "None" ∧
    resolveName ⟨[("tool_name", .pystr "search_emails")], none⟩ = "search_emails" :=
  ⟨rfl, rfl⟩

/-- C4: with tool `search_emails` and empty arguments, the question
`emails from Alice` synthesizes exactly
`query = from:"Alice", max_results = 5`; the `from` literal is matched
case-insensitively; a question without a sender pattern is used verbatim as
the query; and the synthesized arguments always carry `max_results = 5`. -/
theorem c4_search_defaults :
    resolve ⟨[("name", .pystr "search_emails")], none⟩ "emails from Alice" =
      .ok ("search_emails",
        .pydict [("query", .pystr "from:\"Alice\""), ("max_results", .pyint 5)]) ∧
    searchQuery "emails FROM Alice" = "from:\"Alice\"" ∧
    searchQuery "hello world" = "hello world" ∧
    ∀ q, synthSearchArgs q =
      .pydict [("query", .pystr (searchQuery q)), ("max_results", .pyint 5)] :=
  ⟨rfl, rfl, rfl, fun _ => rfl⟩

/-- C7: a name value equal to the serialized debug text
`Function(name='search_emails', arguments={})` triggers the
constructor-token pattern of line 159 and the embedded `name=` value is
extracted, so resolution yields `search_emails`. -/
theorem c7_repr_name_recovery :
    resolveName
      ⟨[("name", .pystr "Function(name=\x27search_emails\x27, arguments=\x7b\x7d)")], none⟩ =
      "search_emails" ∧
    normalizeName (.pystr "Function(name=\x27search_emails\x27, arguments=\x7b\x7d)") =
      "search_emails" :=
  ⟨rfl, rfl⟩

/-- C8: argument extraction maps every raw-arguments shape to the shape the
claim describes: a mapping passes through unchanged, a JSON string is
parsed (`'\x7b"max_results": 3\x7d'` yields the mapping `max_results = 3`),
a non-JSON string degrades to the empty mapping, and an absent value
degrades to the empty mapping. -/
theorem c8_argument_shapes :
    parseRawArgs (.pystr "\x7b\"max_results\": 3\x7d") = .pydict [("max_results", .pyint 3)] ∧
    parseRawArgs (.pystr "not json") = .pydict [] ∧
    parseRawArgs .pynone = .pydict [] ∧
    ∀ es, parseRawArgs (.pydict es) = .pydict es := by
  refine ⟨rfl, rfl, rfl, ?_⟩
  intro es
  cases es with
  | nil => rfl
  | cons e rest => rfl

/-- C3, amended: for any non-empty plain identifier exposed under exactly
one of the candidate locations the source actually probes — the attributes
`name`, `tool`, `function`, `tool_name`; the dict entries `name`, `tool`,
and `function` (string-valued); or nested one level inside the `function`
attribute's dict or object value — resolution extracts the same name
regardless of which location carried it.  (The dict entry `tool_name` is
not probed; see the counterexample.) -/
theorem c3_location_independent :
    ∀ (loc : NameLoc) (n : String), isPlainIdent n = true →
    resolveName (signalWithNameAt loc n) = n := by
  intro loc n hpl
  have hpl2 := hpl
  unfold isPlainIdent at hpl2
  rw [Bool.and_eq_true] at hpl2
  have hne : (n != "") = true := hpl2.1
  have hall : n.data.all identChar = true := hpl2.2
  have hnorm := normalizeName_plain hall
  cases loc <;>
    simp [signalWithNameAt, resolveName, probeName, dictNameOf, nestedName,
      lookupKey, pyAttr, truthy, hne, hnorm]

/-- C3 witness: the name `search_emails` carried by the standard nested
`function` attribute is extracted. -/
theorem c3_location_independent_witness :
    resolveName (signalWithNameAt .attrFunctionObj "search_emails") = "search_emails" :=
  c3_location_independent .attrFunctionObj "search_emails" rfl

/-- C5: when the resolved tool is `get_email_full` and argument extraction
produced the empty mapping, resolution fails with `MissingRequiredArgument`
(no `message_id` can be defaulted) and the dispatch POST is never made for
that question. -/
theorem c5_get_email_full_missing_arg :
    ∀ (w : String → Option PyVal → PostResult) (s : Signal) (q : String),
    resolveName s = "get_email_full" →
    parseRawArgs (extractRawArgs s) = .pydict [] →
    resolve s q = .error .missingRequiredArgument ∧
    dispatchAttempted (ask_llm w s q) = false := by
  intro w s q hn ha
  have hres : resolve s q = .error .missingRequiredArgument := by
    unfold resolve
    rw [hn, ha]
    simp [applyDefaults, truthy]
  refine ⟨hres, ?_⟩
  unfold ask_llm
  rw [hres]
  rfl

/-- C5 witness. -/
theorem c5_get_email_full_missing_arg_witness :
    resolve ⟨[("name", .pystr "get_email_full")], none⟩ "open the email" =
      .error .missingRequiredArgument ∧
    dispatchAttempted (ask_llm (fun _ _ => .response 200 (some (.pydict [])))
      ⟨[("name", .pystr "get_email_full")], none⟩ "open the email") = false :=
  c5_get_email_full_missing_arg _ _ "open the email" rfl rfl

/-- C6: when the endpoint responds with an HTTP error status such as 404,
dispatch yields `DispatchFailure` carrying that status, the outcome is
terminal for the question (a diagnostic, not an answer), the pipeline
returns a value rather than crashing, and the follow-up reasoning call is
skipped. -/
theorem c6_dispatch_http_failure :
    ∀ (w : String → Option PyVal → PostResult) (s : Signal) (q n : String) (a : PyVal)
      (st : Nat) (jb : Option PyVal),
    resolve s q = .ok (n, a) →
    w (endpointOf n) (bodyOf a) = .response st jb →
    400 ≤ st → st < 600 →
    ask_llm w s q = .dispatchFailed n (bodyOf a) (.httpStatus st) ∧
    finalCalled (ask_llm w s q) = false ∧
    diagnosticEmitted (ask_llm w s q) = true := by
  intro w s q n a st jb hres hw h4 h6
  have hd : dispatch w n (bodyOf a) = .failure (.httpStatus st) := by
    unfold dispatch
    rw [hw]
    dsimp only
    rw [if_pos ⟨h4, h6⟩]
  have hout : ask_llm w s q = .dispatchFailed n (bodyOf a) (.httpStatus st) := by
    unfold ask_llm
    rw [hres]
    dsimp only
    rw [hd]
  exact ⟨hout, by rw [hout]; rfl, by rw [hout]; rfl⟩

/-- C6 witness: a 404 from the `get_unread_emails` endpoint. -/
theorem c6_dispatch_http_failure_witness :
    ask_llm (fun _ _ => .response 404 none)
        ⟨[("name", .pystr "get_unread_emails")], none⟩ "any unread mail?" =
      .dispatchFailed "get_unread_emails"
        (some (.pydict [("max_results", .pyint 5)])) (.httpStatus 404) ∧
    finalCalled (ask_llm (fun _ _ => .response 404 none)
      ⟨[("name", .pystr "get_unread_emails")], none⟩ "any unread mail?") = false ∧
    diagnosticEmitted (ask_llm (fun _ _ => .response 404 none)
      ⟨[("name", .pystr "get_unread_emails")], none⟩ "any unread mail?") = true :=
  c6_dispatch_http_failure (fun _ _ => .response 404 none)
    ⟨[("name", .pystr "get_unread_emails")], none⟩ "any unread mail?"
    "get_unread_emails" (.pydict [("max_results", .pyint 5)]) 404 none
    rfl rfl (by decide) (by decide)

/-- C9: the sender capture is greedy across word characters, whitespace,
dots, hyphens and at-signs: in `emails from Alice Smith about budget` it
extends to the last such character; it stops at a character outside the
class (a comma); surrounding whitespace and then quotes, question marks and
dots are stripped from the ends; and every captured character lies in the
class. -/
theorem c9_sender_capture :
    searchQuery "emails from Alice Smith about budget" =
      "from:\"Alice Smith about budget\"" ∧
    searchQuery "emails from Bob, urgent" = "from:\"Bob\"" ∧
    searchQuery "emails from Bob." = "from:\"Bob\"" ∧
    ∀ q, ((findFromGroup q).all (fun g => g.data.all senderClass)) = true := by
  refine ⟨rfl, rfl, rfl, ?_⟩
  intro q
  unfold findFromGroup
  cases hf : scanFrom q.data with
  | none => rfl
  | some g =>
    show ((String.mk g).data.all senderClass) = true
    exact List.all_eq_true.mpr (scanFrom_senderClass hf)

/-- C10: whenever resolution succeeds with one of the three known tool
names, the arguments are truthy and the dispatched POST carries them as a
body (extracted arguments as-is, or the synthesized defaults carrying
`max_results`); a bodiless POST can only happen for a name outside the
known tool table. -/
theorem c10_known_tool_body :
    ∀ (w : String → Option PyVal → PostResult) (s : Signal) (q n : String) (a : PyVal),
    resolve s q = .ok (n, a) →
    (knownTool n = true →
      truthy a = true ∧ outcomeBody (ask_llm w s q) = some (some a)) ∧
    (outcomeBody (ask_llm w s q) = some none → knownTool n = false) := by
  intro w s q n a hres
  have houtcome : outcomeBody (ask_llm w s q) = some (bodyOf a) := by
    unfold ask_llm
    rw [hres]
    dsimp only
    cases hd : dispatch w n (bodyOf a) <;> rfl
  constructor
  · intro hk
    have ht := resolve_ok_known_truthy hres hk
    have hb : bodyOf a = some a := by unfold bodyOf; rw [ht]; rfl
    exact ⟨ht, by rw [houtcome, hb]⟩
  · intro hnone
    cases hkn : knownTool n with
    | false => rfl
    | true =>
      have ht := resolve_ok_known_truthy hres hkn
      have hb : bodyOf a = some a := by unfold bodyOf; rw [ht]; rfl
      rw [houtcome, hb] at hnone
      exact absurd hnone (by simp)

/-- C10 witness: a known tool with defaulted arguments posts a body. -/
theorem c10_known_tool_body_witness :
    truthy (.pydict [("max_results", .pyint 5)]) = true ∧
    outcomeBody (ask_llm (fun _ _ => .response 200 (some (.pydict [])))
        ⟨[("name", .pystr "get_unread_emails")], none⟩ "unread?") =
      some (some (.pydict [("max_results", .pyint 5)])) :=
  (c10_known_tool_body (fun _ _ => .response 200 (some (.pydict [])))
    ⟨[("name", .pystr "get_unread_emails")], none⟩ "unread?"
    "get_unread_emails" (.pydict [("max_results", .pyint 5)]) rfl).1 rfl
